import Mathlib

/-!
# Verification of `sticker.ScheduledTicker`

A shallow embedding of the Go package `sticker` (github.com/wilriker/sticker),
a ticker similar to `time.Ticker` that can be scheduled to start at a given
point in time.  The embedding follows the latest revision of the source
(the file whose `Reset` validates its interval, whose first-fire callback
re-checks the stop channel, and which delivers ticks through `sendTime`).

Modelling conventions:
* `time.Time` and `time.Duration` are `Int` (nanoseconds), as in Go's `time`
  package where both are 64-bit nanosecond counts.  Go's division of
  durations is machine integer division truncating toward zero, embedded as
  `Int.tdiv`.
* A Go `panic` is an `Except.error` carrying the panic cause.
* The concurrent system (the control loop goroutine, the one-shot timer
  callback goroutine, the public operations and the consumer) is embedded as
  a labelled transition system `Step` over `SysState`, with one transition
  per atomic action.  A rendezvous on an unbuffered channel together with
  the `select` case body it triggers is one atomic step of the loop.
  Timer expiry instants are abstracted: an armed timer may fire at any
  moment (the arithmetic governing *when* it fires is exactly `nextRun`,
  verified separately), so timer firings are nondeterministic transitions.
-/

namespace Sticker

/-- Causes of a Go `panic` that the embedded operations can raise. -/
inductive GoPanic where
  /-- `panic(errors.New("non-positive interval ..."))` in `New` / `Reset`. -/
  | nonPositiveInterval : GoPanic
  /-- A send on a closed channel panics in Go. -/
  | sendOnClosedChannel : GoPanic
  /-- `close` of an already closed channel panics in Go. -/
  | closeOfClosedChannel : GoPanic
  deriving DecidableEq, Repr

/-- Embedding of the package-level function

```go
func nextRun(firstStart time.Time, interval time.Duration) time.Time {
    if time.Now().UTC().Before(firstStart) {
        return firstStart
    }
    pastIterations := time.Since(firstStart) / interval
    return firstStart.Add((pastIterations + 1) * interval)
}
```

Both clock reads (`time.Now()` and the one inside `time.Since`) are modelled
as the same instant `now`.  Go's `time.Duration` division is `int64`
division, truncating toward zero (`Int.tdiv`); dividing by a zero duration
panics at runtime, hence the `Option`: `none` is the division-by-zero panic,
reachable only on the past/present branch. -/
def nextRun (now firstStart interval : Int) : Option Int :=
  if now < firstStart then
    some firstStart
  else if interval = 0 then
    none
  else
    some (firstStart + (Int.tdiv (now - firstStart) interval + 1) * interval)

/-- Phases of the first-fire callback passed to `time.AfterFunc` in the
loop's reset case, split at its atomic actions:

```go
resetTimer = time.AfterFunc(time.Until(nextRun(nextStart, st.interval)), func() {
    select {
    case <-st.stop:
        return
    default:
    }
    sendTime(st.ticks, time.Now())
    ticker = time.NewTicker(st.interval)
    nextTick = ticker.C
    if nextTickUpdated != nil {
        nextTickUpdated <- struct{}{}
    }
})
``` -/
inductive CbPhase where
  /-- About to poll `st.stop` (the `select` with a `default` arm). -/
  | checkStop : CbPhase
  /-- Passed the stop check; about to run `sendTime(st.ticks, time.Now())`. -/
  | send : CbPhase
  /-- About to run `ticker = time.NewTicker(st.interval); nextTick = ticker.C`. -/
  | newTicker : CbPhase
  /-- About to signal `nextTickUpdated` (skipped if the loop already exited
  and nilled the channel variable). -/
  | notify : CbPhase
  deriving DecidableEq, Repr

/-- Capacity of the tick delivery channel, from `make(chan time.Time, 1)`
in `New`. -/
def ticksChanCap : Nat := 1

/-- The state of the whole system: the `ScheduledTicker` channels and
stored interval, the control-loop goroutine with its local variables
(`resetTimer`, `ticker`, `nextTick`), the in-flight first-fire callback
goroutines, and a count of live timer resources in the runtime.

`oneShotAlive` counts armed, not-yet-fired `time.AfterFunc` timers;
`tickerAlive` counts created, not-yet-stopped `time.Ticker`s.
`heldOneShotArmed` says the timer referenced by the loop's `resetTimer`
variable is still armed; `tickerHeld` says the loop's `ticker` variable
references a live ticker.  `nextTickNil` mirrors the loop's `nextTick`
channel variable being nil, and `nextTickBuf` is the pending element of
the capacity-one channel `nextTick` references.  `delivered` counts ticks
ever placed into the output buffer. -/
structure SysState where
  stopClosed : Bool
  resetClosed : Bool
  ticksBuf : List Int
  ticksClosed : Bool
  interval : Int
  loopRunning : Bool
  resetTimerHeld : Bool
  heldOneShotArmed : Bool
  tickerHeld : Bool
  nextTickNil : Bool
  nextTickBuf : Option Int
  oneShotAlive : Nat
  tickerAlive : Nat
  cbs : List CbPhase
  delivered : Nat
  deriving DecidableEq, Repr

/-- Embedding of

```go
func sendTime(ticks chan<- time.Time, tick time.Time) {
    select {
    case ticks <- tick:
    default:
    }
}
```

on the capacity-one channel `st.ticks`: buffer the tick if there is room,
otherwise drop it; never block. -/
def sendTime (ticks : List Int) (tick : Int) : List Int :=
  if ticks.length < ticksChanCap then ticks ++ [tick] else ticks

/-- Embedding of the loop's closure

```go
stopTickerTimer := func() {
    nextTick = nil
    if resetTimer != nil {
        resetTimer.Stop()
        resetTimer = nil
    }
    if ticker != nil {
        ticker.Stop()
        ticker = nil
    }
}
```

`Timer.Stop` on an already-fired one-shot is a no-op, so `oneShotAlive`
drops only if the held timer was still armed.  Dropping the `nextTick`
reference abandons the stopped ticker's channel, so its pending element
disappears from the loop's view. -/
def stopTickerTimer (s : SysState) : SysState :=
  { s with nextTickNil := true, nextTickBuf := none,
           oneShotAlive := s.oneShotAlive - (if s.heldOneShotArmed then 1 else 0),
           resetTimerHeld := false, heldOneShotArmed := false,
           tickerAlive := s.tickerAlive - (if s.tickerHeld then 1 else 0),
           tickerHeld := false }

/-- `resetTimer = time.AfterFunc(..., func() { ... })`: a fresh armed
one-shot timer, referenced by the loop's `resetTimer` variable. -/
def armOneShot (s : SysState) : SysState :=
  { s with resetTimerHeld := true, heldOneShotArmed := true,
           oneShotAlive := s.oneShotAlive + 1 }

/-- Body of the loop's `case nextStart := <-st.reset`: discard the current
timers, then arm the first-fire one-shot.  Its deadline
`time.Until(nextRun(next, st.interval))` is pure timing, abstracted in this
untimed model (`nextRun` is verified separately); expiry of the armed timer
is a nondeterministic `Step.oneShotFire`. -/
def resetCase (s : SysState) (_next : Int) : SysState :=
  armOneShot (stopTickerTimer s)

/-- The loop's `case <-st.stop: return` path together with its deferred
cleanup: `stopTickerTimer()` runs and `nextTickUpdated` is nilled and
closed. -/
def loopExit (s : SysState) : SysState :=
  { stopTickerTimer s with loopRunning := false }

/-- A delivery through `sendTime(st.ticks, t)`, also counting whether the
tick actually landed in the buffer. -/
def deliver (s : SysState) (t : Int) : SysState :=
  { s with ticksBuf := sendTime s.ticksBuf t,
           delivered := s.delivered +
             (if s.ticksBuf.length < ticksChanCap then 1 else 0) }

/-- The system right after `New`'s allocation and `go ticker.loop()`:
channels fresh and open, empty capacity-one tick buffer, no timers, the
loop at its `select`, the zero interval not yet overwritten by the first
`Reset`. -/
def startState : SysState where
  stopClosed := false
  resetClosed := false
  ticksBuf := []
  ticksClosed := false
  interval := 0
  loopRunning := true
  resetTimerHeld := false
  heldOneShotArmed := false
  tickerHeld := false
  nextTickNil := true
  nextTickBuf := none
  oneShotAlive := 0
  tickerAlive := 0
  cbs := []
  delivered := 0

/-- Embedding of

```go
func (st *ScheduledTicker) Reset(next time.Time, interval time.Duration) {
    if interval <= 0 {
        panic(errors.New("non-positive interval for ScheduledTicker.Reset"))
    }
    st.interval = interval
    st.reset <- next
}
```

The validation panic fires before anything is written or sent.  A send on
the closed `st.reset` panics.  Otherwise the send is a rendezvous with the
live loop; the returned state includes the loop's reset-case body, the
atomicity chosen for rendezvous steps throughout this model. -/
def Reset (s : SysState) (next interval : Int) : Except GoPanic SysState :=
  if interval ≤ 0 then
    .error .nonPositiveInterval
  else if s.resetClosed then
    .error .sendOnClosedChannel
  else
    .ok (resetCase { s with interval := interval } next)

/-- Embedding of

```go
func (st *ScheduledTicker) Stop() {
    close(st.stop)
    close(st.reset)
}
```

Closing an already closed channel panics. -/
def Stop (s : SysState) : Except GoPanic SysState :=
  if s.stopClosed then
    .error .closeOfClosedChannel
  else if s.resetClosed then
    .error .closeOfClosedChannel
  else
    .ok { s with stopClosed := true, resetClosed := true }

/-- Embedding of

```go
func New(first time.Time, interval time.Duration) *ScheduledTicker {
    if interval <= 0 {
        panic(errors.New("non-positive interval for New ScheduledTicker"))
    }
    c := make(chan time.Time, 1)
    ticker := &ScheduledTicker{ticks: c, C: c, stop: ..., reset: ...}
    go ticker.loop()
    ticker.Reset(first, interval)
    return ticker
}
```

The validation panic fires before the channels are allocated and before the
loop goroutine starts. -/
def New (first interval : Int) : Except GoPanic SysState :=
  if interval ≤ 0 then
    .error .nonPositiveInterval
  else
    Reset startState first interval

/-- Labels of the atomic transitions of the system. -/
inductive Label where
  /-- A caller's `Stop()` closing `st.stop` and `st.reset`. -/
  | callStop : Label
  /-- The loop takes `case <-st.stop` and returns. -/
  | loopStop : Label
  /-- The loop rendezvouses with a validated `Reset(next, interval)`. -/
  | loopReset (next interval : Int) : Label
  /-- The loop receives the zero value from the closed `st.reset`. -/
  | loopResetClosed : Label
  /-- The loop takes `case t := <-nextTick` and delivers. -/
  | loopTick (t : Int) : Label
  /-- The armed one-shot timer expires; its callback goroutine starts. -/
  | oneShotFire : Label
  /-- A callback polls `st.stop`. -/
  | cbStopCheck : Label
  /-- A callback runs `sendTime(st.ticks, time.Now())`. -/
  | cbDeliver (t : Int) : Label
  /-- A callback creates the interval ticker and points `nextTick` at it. -/
  | cbArmTicker : Label
  /-- A callback signals (or skips) `nextTickUpdated` and finishes. -/
  | cbNotify : Label
  /-- The ticker referenced by `nextTick` fires into its channel. -/
  | tickerFire (t : Int) : Label
  /-- The consumer reads a tick from `st.C`. -/
  | consume (t : Int) : Label
  deriving DecidableEq, Repr

/-- One atomic transition of the system: an interleaving semantics for the
control loop, the first-fire callback goroutines, the timer runtime, the
public operations and the consumer.  `select` among ready cases is
nondeterministic, as in Go: when several receive cases are ready the loop
may take any of them. -/
inductive Step : SysState → Label → SysState → Prop where
  /-- `Stop()` on a not-yet-stopped ticker closes both signal channels
  (`Stop` on a stopped one panics instead and is not a system step). -/
  | callStop (s : SysState) (h : s.stopClosed = false) :
      Step s .callStop { s with stopClosed := true, resetClosed := true }
  /-- The loop observes the closed `st.stop` and returns, running its
  deferred cleanup. -/
  | loopStop (s : SysState) (hrun : s.loopRunning = true)
      (h : s.stopClosed = true) :
      Step s .loopStop (loopExit s)
  /-- Rendezvous of a caller's validated `Reset(next, interval)` with the
  loop's `case nextStart := <-st.reset`: the caller has written
  `st.interval`, and the loop runs the case body.  Only intervals that
  passed the `interval <= 0` validation reach the channel. -/
  | loopReset (s : SysState) (next interval : Int) (hrun : s.loopRunning = true)
      (hopen : s.resetClosed = false) (hi : 0 < interval) :
      Step s (.loopReset next interval) (resetCase { s with interval := interval } next)
  /-- Receiving from the closed `st.reset` succeeds immediately with the
  zero `time.Time`, so after `Stop` the loop may still take its reset case
  with the zero value; `st.interval` is unchanged. -/
  | loopResetClosed (s : SysState) (hrun : s.loopRunning = true)
      (hclosed : s.resetClosed = true) :
      Step s .loopResetClosed (resetCase s 0)
  /-- The loop's `case t := <-nextTick: sendTime(st.ticks, t)`. -/
  | loopTick (s : SysState) (t : Int) (hrun : s.loopRunning = true)
      (hnt : s.nextTickNil = false) (hbuf : s.nextTickBuf = some t) :
      Step s (.loopTick t) (deliver { s with nextTickBuf := none } t)
  /-- The armed one-shot expires: the timer resource is spent and its
  callback goroutine begins at the stop check. -/
  | oneShotFire (s : SysState) (h : s.heldOneShotArmed = true) :
      Step s .oneShotFire { s with heldOneShotArmed := false,
                                   oneShotAlive := s.oneShotAlive - 1,
                                   cbs := s.cbs ++ [.checkStop] }
  /-- A callback's stop check with `st.stop` still open: proceed to the
  delivery. -/
  | cbStopCheckOpen (s : SysState) (l1 l2 : List CbPhase)
      (hc : s.cbs = l1 ++ CbPhase.checkStop :: l2) (h : s.stopClosed = false) :
      Step s .cbStopCheck { s with cbs := l1 ++ CbPhase.send :: l2 }
  /-- A callback's stop check with `st.stop` closed: the callback returns
  without delivering anything. -/
  | cbStopCheckClosed (s : SysState) (l1 l2 : List CbPhase)
      (hc : s.cbs = l1 ++ CbPhase.checkStop :: l2) (h : s.stopClosed = true) :
      Step s .cbStopCheck { s with cbs := l1 ++ l2 }
  /-- A callback's `sendTime(st.ticks, time.Now())`; the wall-clock reading
  `t` is nondeterministic in this untimed model. -/
  | cbDeliver (s : SysState) (t : Int) (l1 l2 : List CbPhase)
      (hc : s.cbs = l1 ++ CbPhase.send :: l2) :
      Step s (.cbDeliver t)
        (deliver { s with cbs := l1 ++ CbPhase.newTicker :: l2 } t)
  /-- A callback's `ticker = time.NewTicker(st.interval); nextTick =
  ticker.C`: a fresh live ticker, and the loop's `ticker`/`nextTick`
  variables now reference it.  A previously referenced live ticker becomes
  unreachable without having been stopped. -/
  | cbArmTicker (s : SysState) (l1 l2 : List CbPhase)
      (hc : s.cbs = l1 ++ CbPhase.newTicker :: l2) :
      Step s .cbArmTicker { s with cbs := l1 ++ CbPhase.notify :: l2,
                                   tickerAlive := s.tickerAlive + 1,
                                   tickerHeld := true,
                                   nextTickNil := false,
                                   nextTickBuf := none }
  /-- A callback's final notification: a rendezvous with the running loop's
  `case <-nextTickUpdated` (a no-op case), or skipped via the nil check
  when the loop has exited; either way the callback goroutine finishes. -/
  | cbNotify (s : SysState) (l1 l2 : List CbPhase)
      (hc : s.cbs = l1 ++ CbPhase.notify :: l2) :
      Step s .cbNotify { s with cbs := l1 ++ l2 }
  /-- The live ticker referenced by `nextTick` fires: `time.Ticker` sends
  non-blockingly into its own capacity-one channel, so a fire is only
  visible when that channel is empty. -/
  | tickerFire (s : SysState) (t : Int) (hnt : s.nextTickNil = false)
      (hbuf : s.nextTickBuf = none) :
      Step s (.tickerFire t) { s with nextTickBuf := some t }
  /-- The consumer receives a delivered tick from `st.C`. -/
  | consume (s : SysState) (t : Int) (rest : List Int)
      (hbuf : s.ticksBuf = t :: rest) :
      Step s (.consume t) { s with ticksBuf := rest }

/-- Finite executions of the system. -/
inductive ReachableFrom : SysState → SysState → Prop where
  | refl (s : SysState) : ReachableFrom s s
  | tail {a b c : SysState} (hab : ReachableFrom a b) (l : Label)
      (hbc : Step b l c) : ReachableFrom a c

/-- States reachable from a freshly constructed (pre-first-`Reset`)
ticker. -/
def Reachable (s : SysState) : Prop :=
  ReachableFrom startState s

/-- A step is a quiet reconfiguration when any accepted reset rendezvous
happens with no first-fire callback in flight. -/
def QuietReset (b : SysState) (l : Label) : Prop :=
  match l with
  | .loopReset _ _ => b.cbs = []
  | .loopResetClosed => b.cbs = []
  | _ => True

/-- Executions in which reconfigurations are only accepted while no
first-fire callback is in flight. -/
inductive QReachableFrom : SysState → SysState → Prop where
  | refl (s : SysState) : QReachableFrom s s
  | tail {a b c : SysState} (hab : QReachableFrom a b) (l : Label)
      (hq : QuietReset b l) (hbc : Step b l c) : QReachableFrom a c

/-- Quiet-reconfiguration reachability from a fresh ticker. -/
def QReachable (s : SysState) : Prop :=
  QReachableFrom startState s

/-- Invariant of all reachable states: the output buffer never exceeds the
channel capacity, the output channel is never closed, and every armed
one-shot timer is the one referenced by the loop's `resetTimer`
variable. -/
def Inv (s : SysState) : Prop :=
  s.ticksBuf.length ≤ ticksChanCap
    ∧ s.ticksClosed = false
    ∧ s.oneShotAlive = (if s.heldOneShotArmed then 1 else 0)

/-- Invariant of quiet-reconfiguration executions: timer resources match
the loop's held references, at most one callback is in flight, a callback
that has not yet created its ticker coexists only with no held ticker, and
an armed one-shot precludes both. -/
def QInv (s : SysState) : Prop :=
  s.oneShotAlive = (if s.heldOneShotArmed then 1 else 0)
    ∧ s.tickerAlive = (if s.tickerHeld then 1 else 0)
    ∧ s.cbs.length ≤ 1
    ∧ (∀ c ∈ s.cbs,
        (c = CbPhase.checkStop ∨ c = CbPhase.send ∨ c = CbPhase.newTicker) →
          s.tickerHeld = false)
    ∧ (s.heldOneShotArmed = true → s.tickerHeld = false ∧ s.cbs = [])

/-- The system once the stop signal has been issued, the loop has observed
it and exited, and no in-flight callback has already passed its stop
check. -/
def Stopped (s : SysState) : Prop :=
  s.stopClosed = true ∧ s.loopRunning = false ∧ CbPhase.send ∉ s.cbs

/-- A reachable state with the stop signal just issued while a tick from
the interval ticker is still pending in `nextTick`: the loop is still
running and `select` may take the tick case. -/
def cexStop : SysState where
  stopClosed := true
  resetClosed := true
  ticksBuf := []
  ticksClosed := false
  interval := 10
  loopRunning := true
  resetTimerHeld := true
  heldOneShotArmed := false
  tickerHeld := true
  nextTickNil := false
  nextTickBuf := some 200
  oneShotAlive := 0
  tickerAlive := 1
  cbs := []
  delivered := 1

/-- The state after the loop, post-`Stop`, takes `case t := <-nextTick`
and delivers the pending tick. -/
def cexAfterStop : SysState :=
  deliver { cexStop with nextTickBuf := none } 200

/-- A reachable state holding two live interval tickers: the first one was
created by a first-fire callback whose configuration had already been
superseded by a `Reset`, and the second callback's `NewTicker` overwrote
the loop's reference to it without stopping it. -/
def cexLeak : SysState where
  stopClosed := false
  resetClosed := false
  ticksBuf := [100]
  ticksClosed := false
  interval := 10
  loopRunning := true
  resetTimerHeld := true
  heldOneShotArmed := false
  tickerHeld := true
  nextTickNil := false
  nextTickBuf := none
  oneShotAlive := 0
  tickerAlive := 2
  cbs := [CbPhase.notify]
  delivered := 1

/-- Step 1 of the counterexample executions: the loop accepts the first
`Reset(0, 10)` rendezvous and arms the first-fire one-shot. -/
def cex1 : SysState :=
  resetCase { startState with interval := 10 } 0

/-- Step 2: the one-shot expires; its callback starts at the stop check. -/
def cex2 : SysState :=
  { cex1 with heldOneShotArmed := false, oneShotAlive := cex1.oneShotAlive - 1,
              cbs := cex1.cbs ++ [CbPhase.checkStop] }

/-- Step 3: the callback passes its stop check (`st.stop` still open). -/
def cex3 : SysState :=
  { cex2 with cbs := [] ++ CbPhase.send :: [] }

/-- Step 4 (stop-race execution): the callback delivers the first tick. -/
def cex4 : SysState :=
  deliver { cex3 with cbs := [] ++ CbPhase.newTicker :: [] } 100

/-- Step 5: the consumer drains the tick. -/
def cex5 : SysState :=
  { cex4 with ticksBuf := [] }

/-- Step 6: the callback creates the interval ticker. -/
def cex6 : SysState :=
  { cex5 with cbs := [] ++ CbPhase.notify :: [], tickerAlive := cex5.tickerAlive + 1,
              tickerHeld := true, nextTickNil := false, nextTickBuf := none }

/-- Step 7: the callback notifies the loop and finishes. -/
def cex7 : SysState :=
  { cex6 with cbs := ([] : List CbPhase) }

/-- Step 8: the interval ticker fires a tick into `nextTick`. -/
def cex8 : SysState :=
  { cex7 with nextTickBuf := some 200 }

/-- Step 4 of the leak execution: while the callback of `cex3` is between
its stop check and its `NewTicker`, the loop accepts a second
`Reset(5, 10)`; `stopTickerTimer` sees no held ticker to stop, and a new
one-shot is armed. -/
def lex4 : SysState :=
  resetCase { cex3 with interval := 10 } 5

/-- Step 5: the superseded callback delivers its tick. -/
def lex5 : SysState :=
  deliver { lex4 with cbs := [] ++ CbPhase.newTicker :: [] } 100

/-- Step 6: the superseded callback creates interval ticker number one. -/
def lex6 : SysState :=
  { lex5 with cbs := [] ++ CbPhase.notify :: [], tickerAlive := lex5.tickerAlive + 1,
              tickerHeld := true, nextTickNil := false, nextTickBuf := none }

/-- Step 7: the superseded callback notifies and finishes. -/
def lex7 : SysState :=
  { lex6 with cbs := ([] : List CbPhase) }

/-- Step 8: the second configuration's one-shot expires. -/
def lex8 : SysState :=
  { lex7 with heldOneShotArmed := false, oneShotAlive := lex7.oneShotAlive - 1,
              cbs := lex7.cbs ++ [CbPhase.checkStop] }

/-- Step 9: the second callback passes its stop check. -/
def lex9 : SysState :=
  { lex8 with cbs := [] ++ CbPhase.send :: [] }

/-- Step 10: the second callback's tick is dropped (buffer still full). -/
def lex10 : SysState :=
  deliver { lex9 with cbs := [] ++ CbPhase.newTicker :: [] } 200

/-- Step 11: the second callback's `NewTicker` overwrites the loop's
reference to ticker number one without stopping it: two live tickers. -/
def lex11 : SysState :=
  { lex10 with cbs := [] ++ CbPhase.notify :: [], tickerAlive := lex10.tickerAlive + 1,
               tickerHeld := true, nextTickNil := false, nextTickBuf := none }

/-- A stopped-and-exited state with one first-fire callback still in
flight, not yet past its stop check. -/
def stoppedCbState : SysState :=
  { startState with stopClosed := true, resetClosed := true,
                    loopRunning := false, cbs := [CbPhase.checkStop] }

end Sticker

namespace Sticker

/-- C1: with the anchor in the past or present (`¬ now < anchor`) and the
division defined (`interval ≠ 0`), `nextRun` returns
`anchor + (pastIterations + 1) * interval` where
`pastIterations = (now - anchor).tdiv interval`, the truncating-toward-zero
division of Go; moreover for a positive interval this truncating quotient
coincides with the flooring quotient, as the claim's `floor` wording asks. -/
theorem nextRun_past_formula (now anchor interval : Int)
    (hpast : ¬ now < anchor) (hi : interval ≠ 0) :
    nextRun now anchor interval
        = some (anchor + (Int.tdiv (now - anchor) interval + 1) * interval)
      ∧ (0 < interval →
          Int.tdiv (now - anchor) interval = (now - anchor) / interval) := by
  refine ⟨by simp [nextRun, hpast, hi], fun hpos => ?_⟩
  have hnum : (0 : Int) ≤ now - anchor := by omega
  exact Int.tdiv_eq_ediv hnum (le_of_lt hpos)

/-- Witness for C1 at `now = 10`, `anchor = 3`, `interval = 4`:
`pastIterations = 7.tdiv 4 = 1` and the next run is `3 + 2 * 4 = 11`. -/
theorem nextRun_past_formula_witness :
    nextRun 10 3 4 = some (3 + (Int.tdiv (10 - 3) 4 + 1) * 4)
      ∧ ((0 : Int) < 4 → Int.tdiv ((10 : Int) - 3) 4 = (10 - 3) / 4) :=
  nextRun_past_formula 10 3 4 (by decide) (by decide)

/-- C2 fails as stated: at `anchor = 0`, `now = 10`, `interval = 10` (an
anchor strictly in the past, a positive interval, and `now - anchor` an
exact multiple of the interval) the result `20` differs from `now` by
exactly the interval, not by less than it. -/
theorem nextRun_within_interval_counterexample :
    (0 : Int) < 10 ∧ (0 : Int) < 10
      ∧ nextRun 10 0 10 = some 20 ∧ ¬ ((20 : Int) - 10 < 10) := by
  decide

/-- C2 (amended): for an anchor strictly in the past and a positive
interval, `nextRun` returns a value strictly greater than `now`, at most
`interval` away from `now` (equality exactly when `now - anchor` is an
exact multiple of the interval), and congruent to the anchor modulo the
interval. -/
theorem nextRun_aligned_bounds (now anchor interval : Int)
    (hpast : anchor < now) (hi : 0 < interval) :
    ∃ r, nextRun now anchor interval = some r
      ∧ now < r ∧ r - now ≤ interval ∧ interval ∣ (r - anchor) := by
  have hnotlt : ¬ now < anchor := by omega
  have hne : interval ≠ 0 := ne_of_gt hi
  set e : Int := now - anchor with he
  have htdiv : Int.tdiv e interval = e / interval :=
    Int.tdiv_eq_ediv (by omega) (le_of_lt hi)
  refine ⟨anchor + (Int.tdiv e interval + 1) * interval, ?_, ?_, ?_, ?_⟩
  · simp [nextRun, hnotlt, hne]
  · have hdm : interval * (e / interval) + e % interval = e :=
      Int.ediv_add_emod e interval
    have hlt : e % interval < interval := Int.emod_lt_of_pos e hi
    rw [htdiv]
    nlinarith [hdm, hlt]
  · have hdm : interval * (e / interval) + e % interval = e :=
      Int.ediv_add_emod e interval
    have hnn : 0 ≤ e % interval := Int.emod_nonneg e hne
    rw [htdiv]
    nlinarith [hdm, hnn]
  · exact ⟨Int.tdiv e interval + 1, by ring⟩

/-- Witness for the amended C2 at `now = 3`, `anchor = 0`, `interval = 2`. -/
theorem nextRun_aligned_bounds_witness :
    (0 : Int) < 3 ∧ (0 : Int) < 2
      ∧ ∃ r, nextRun 3 0 2 = some r ∧ 3 < r ∧ r - 3 ≤ 2 ∧ 2 ∣ (r - 0) :=
  ⟨by decide, by decide, nextRun_aligned_bounds 3 0 2 (by decide) (by decide)⟩

/-- C3: with the anchor strictly in the future (`now < anchor`), `nextRun`
returns the anchor unchanged, for every interval (the future branch returns
before the division, so even a zero interval cannot panic here). -/
theorem nextRun_future (now anchor interval : Int) (h : now < anchor) :
    nextRun now anchor interval = some anchor := by
  simp [nextRun, h]

/-- Witness for C3 at `now = 1`, `anchor = 5`, `interval = 3`. -/
theorem nextRun_future_witness : nextRun 1 5 3 = some 5 :=
  nextRun_future 1 5 3 (by decide)

/-! Helper lemmas about the transition system, shared by the loop claims. -/

lemma inv_startState : Inv startState := by
  simp [Inv, startState, ticksChanCap]

lemma sendTime_length_le {b : List Int} (t : Int) (h : b.length ≤ ticksChanCap) :
    (sendTime b t).length ≤ ticksChanCap := by
  unfold sendTime
  split
  · next hlt =>
      rw [List.length_append]
      simp only [List.length_singleton, ticksChanCap] at hlt ⊢
      omega
  · exact h

lemma inv_step {s s' : SysState} {l : Label} (h : Inv s) (hs : Step s l s') :
    Inv s' := by
  obtain ⟨h1, h2, h3⟩ := h
  cases hs with
  | callStop h => exact ⟨h1, h2, h3⟩
  | loopStop hrun hst =>
      refine ⟨h1, h2, ?_⟩
      simp only [loopExit, stopTickerTimer]
      rw [h3]
      cases s.heldOneShotArmed <;> simp
  | loopReset next interval hrun hopen hi =>
      refine ⟨h1, h2, ?_⟩
      simp only [resetCase, armOneShot, stopTickerTimer]
      rw [h3]
      cases s.heldOneShotArmed <;> simp
  | loopResetClosed hrun hclosed =>
      refine ⟨h1, h2, ?_⟩
      simp only [resetCase, armOneShot, stopTickerTimer]
      rw [h3]
      cases s.heldOneShotArmed <;> simp
  | loopTick t hrun hnt hbuf =>
      exact ⟨sendTime_length_le t h1, h2, h3⟩
  | oneShotFire h =>
      refine ⟨h1, h2, ?_⟩
      simp only [h, if_true] at h3
      simp [h3]
  | cbStopCheckOpen l1 l2 hc h => exact ⟨h1, h2, h3⟩
  | cbStopCheckClosed l1 l2 hc h => exact ⟨h1, h2, h3⟩
  | cbDeliver t l1 l2 hc =>
      exact ⟨sendTime_length_le t h1, h2, h3⟩
  | cbArmTicker l1 l2 hc => exact ⟨h1, h2, h3⟩
  | cbNotify l1 l2 hc => exact ⟨h1, h2, h3⟩
  | tickerFire t hnt hbuf => exact ⟨h1, h2, h3⟩
  | consume t rest hbuf =>
      refine ⟨?_, h2, h3⟩
      rw [hbuf] at h1
      simp only [List.length_cons, ticksChanCap] at h1 ⊢
      omega

lemma inv_reachableFrom {a b : SysState} (h : ReachableFrom a b) (ha : Inv a) :
    Inv b := by
  induction h with
  | refl => exact ha
  | tail hab l hbc ih => exact inv_step ih hbc

lemma inv_reachable {s : SysState} (h : Reachable s) : Inv s :=
  inv_reachableFrom h inv_startState

/-- C4: `New` validates its interval: it panics with the non-positive
interval error for every `interval ≤ 0` — the check precedes the channel
allocation and the `go ticker.loop()`, so in that case no control loop is
started and no handle is returned — and for every `interval > 0` it
returns a handle without panicking. -/
theorem New_interval_validation (first interval : Int) :
    (interval ≤ 0 → New first interval = .error .nonPositiveInterval)
      ∧ (0 < interval → ∃ s, New first interval = .ok s) := by
  constructor
  · intro h
    simp [New, h]
  · intro h
    refine ⟨resetCase { startState with interval := interval } first, ?_⟩
    simp [New, Reset, startState, not_le.mpr h, not_le_of_lt h]

/-- Witness for C4 at `interval = -1` (panic) and `interval = 5` (handle
returned). -/
theorem New_interval_validation_witness :
    New 0 (-1) = .error .nonPositiveInterval ∧ ∃ s, New 0 5 = .ok s :=
  ⟨(New_interval_validation 0 (-1)).1 (by decide),
   (New_interval_validation 0 5).2 (by decide)⟩

/-- C5: on a live ticker (its `reset` channel not closed), `Reset` panics
with the non-positive interval error for every `interval ≤ 0` — the
validation precedes the write of `st.interval` and the send on `st.reset`,
so nothing reaches the control loop — and for every `interval > 0` it
completes without panicking. -/
theorem Reset_interval_validation (s : SysState) (next interval : Int)
    (hlive : s.resetClosed = false) :
    (interval ≤ 0 → Reset s next interval = .error .nonPositiveInterval)
      ∧ (0 < interval → ∃ s', Reset s next interval = .ok s') := by
  constructor
  · intro h
    simp [Reset, h]
  · intro h
    exact ⟨resetCase { s with interval := interval } next,
      by simp [Reset, hlive, not_le_of_lt h]⟩

/-- Witness for C5 on the fresh ticker state, at `interval = 0` (panic)
and `interval = 7` (accepted). -/
theorem Reset_interval_validation_witness :
    (Reset startState 3 0 = .error .nonPositiveInterval)
      ∧ ∃ s', Reset startState 3 7 = .ok s' :=
  ⟨(Reset_interval_validation startState 3 0 rfl).1 (by decide),
   (Reset_interval_validation startState 3 7 rfl).2 (by decide)⟩

/-- C9: `Stop` closes only the two internal signal channels: a successful
`Stop` leaves every other component of the state — in particular the tick
channel's buffer and its open/closed status — unchanged, and in every
reachable state of the whole system the tick channel has never been
closed by anything. -/
theorem Stop_never_closes_ticks (s s' : SysState) (h : Stop s = .ok s') :
    s' = { s with stopClosed := true, resetClosed := true }
      ∧ s'.ticksClosed = s.ticksClosed
      ∧ s'.ticksBuf = s.ticksBuf
      ∧ (∀ u, Reachable u → u.ticksClosed = false) := by
  have hs : s' = { s with stopClosed := true, resetClosed := true } := by
    by_cases h1 : s.stopClosed
    · simp [Stop, h1] at h
    · by_cases h2 : s.resetClosed
      · simp [Stop, h1, h2] at h
      · simp [Stop, h1, h2] at h
        exact h.symm
  refine ⟨hs, by rw [hs], by rw [hs], fun u hu => (inv_reachable hu).2.1⟩

/-- Witness for C9: `Stop` on the fresh ticker state. -/
theorem Stop_never_closes_ticks_witness :
    { startState with stopClosed := true, resetClosed := true }
        = { startState with stopClosed := true, resetClosed := true }
      ∧ SysState.ticksClosed
          { startState with stopClosed := true, resetClosed := true }
          = startState.ticksClosed
      ∧ SysState.ticksBuf
          { startState with stopClosed := true, resetClosed := true }
          = startState.ticksBuf
      ∧ (∀ u, Reachable u → u.ticksClosed = false) :=
  Stop_never_closes_ticks startState
    { startState with stopClosed := true, resetClosed := true } rfl

/-- C10: after a completed `Stop`, any further `Reset` panics
deterministically — with the send-on-closed-channel panic when the new
interval passes validation, and with the validation panic when it does
not — and a second `Stop` panics deterministically with the
close-of-closed-channel panic; neither misuse is silently ignored. -/
theorem misuse_after_Stop_panics (s s' : SysState) (h : Stop s = .ok s') :
    (∀ next interval, 0 < interval →
        Reset s' next interval = .error .sendOnClosedChannel)
      ∧ (∀ next interval, interval ≤ 0 →
          Reset s' next interval = .error .nonPositiveInterval)
      ∧ Stop s' = .error .closeOfClosedChannel := by
  have hs : s' = { s with stopClosed := true, resetClosed := true } := by
    by_cases h1 : s.stopClosed
    · simp [Stop, h1] at h
    · by_cases h2 : s.resetClosed
      · simp [Stop, h1, h2] at h
      · simp [Stop, h1, h2] at h
        exact h.symm
  subst hs
  refine ⟨fun next interval hi => ?_, fun next interval hi => ?_, ?_⟩
  · simp [Reset, not_le_of_lt hi]
  · simp [Reset, hi]
  · simp [Stop]

/-- Witness for C10 after stopping the fresh ticker state. -/
theorem misuse_after_Stop_panics_witness :
    Reset { startState with stopClosed := true, resetClosed := true } 4 2
        = .error .sendOnClosedChannel
      ∧ Stop { startState with stopClosed := true, resetClosed := true }
        = .error .closeOfClosedChannel := by
  have h := misuse_after_Stop_panics startState
    { startState with stopClosed := true, resetClosed := true } rfl
  exact ⟨h.1 4 2 (by decide), h.2.2⟩

lemma qcb_nil {s : SysState} (h3 : s.cbs.length ≤ 1) {l1 l2 : List CbPhase}
    {x : CbPhase} (hc : s.cbs = l1 ++ x :: l2) : l1 = [] ∧ l2 = [] := by
  rw [hc, List.length_append, List.length_cons] at h3
  exact ⟨List.eq_nil_of_length_eq_zero (by omega),
    List.eq_nil_of_length_eq_zero (by omega)⟩

lemma qinv_startState : QInv startState := by
  simp [QInv, startState]

lemma qinv_step {s s' : SysState} {l : Label} (h : QInv s) (hq : QuietReset s l)
    (hs : Step s l s') : QInv s' := by
  obtain ⟨h1, h2, h3, h4, h5⟩ := h
  cases hs with
  | callStop hc => exact ⟨h1, h2, h3, h4, h5⟩
  | loopStop hrun hst =>
      refine ⟨?_, ?_, h3, fun c hc hor => rfl,
        fun ha => by simp [loopExit, stopTickerTimer] at ha⟩
      · simp only [loopExit, stopTickerTimer]
        rw [h1]
        cases s.heldOneShotArmed <;> simp
      · simp only [loopExit, stopTickerTimer]
        rw [h2]
        cases s.tickerHeld <;> simp
  | loopReset next interval hrun hopen hi =>
      have hnil : s.cbs = [] := hq
      refine ⟨?_, ?_, h3, fun c hc hor => rfl, fun ha => ⟨rfl, hnil⟩⟩
      · simp only [resetCase, armOneShot, stopTickerTimer]
        rw [h1]
        cases s.heldOneShotArmed <;> simp
      · simp only [resetCase, armOneShot, stopTickerTimer]
        rw [h2]
        cases s.tickerHeld <;> simp
  | loopResetClosed hrun hclosed =>
      have hnil : s.cbs = [] := hq
      refine ⟨?_, ?_, h3, fun c hc hor => rfl, fun ha => ⟨rfl, hnil⟩⟩
      · simp only [resetCase, armOneShot, stopTickerTimer]
        rw [h1]
        cases s.heldOneShotArmed <;> simp
      · simp only [resetCase, armOneShot, stopTickerTimer]
        rw [h2]
        cases s.tickerHeld <;> simp
  | loopTick t hrun hnt hbuf => exact ⟨h1, h2, h3, h4, h5⟩
  | oneShotFire hf =>
      obtain ⟨hth, hnil⟩ := h5 hf
      refine ⟨?_, h2, ?_, fun c hc hor => hth, fun ha => nomatch ha⟩
      · simp only [hf, if_true] at h1
        simp [h1]
      · simp [hnil]
  | cbStopCheckOpen l1 l2 hc hopen =>
      obtain ⟨hl1, hl2⟩ := qcb_nil h3 hc
      subst hl1
      subst hl2
      have hheld : s.tickerHeld = false :=
        h4 CbPhase.checkStop (by rw [hc]; simp) (Or.inl rfl)
      refine ⟨h1, h2, by simp, fun c hc' hor => hheld, fun ha => ?_⟩
      obtain ⟨hth, hnil⟩ := h5 ha
      exact absurd (hnil.symm.trans hc) (by simp)
  | cbStopCheckClosed l1 l2 hc hst =>
      obtain ⟨hl1, hl2⟩ := qcb_nil h3 hc
      subst hl1
      subst hl2
      refine ⟨h1, h2, by simp, fun c hc' hor => ?_, fun ha => ?_⟩
      · simp at hc'
      · exact ⟨h4 CbPhase.checkStop (by rw [hc]; simp) (Or.inl rfl), by simp⟩
  | cbDeliver t l1 l2 hc =>
      obtain ⟨hl1, hl2⟩ := qcb_nil h3 hc
      subst hl1
      subst hl2
      have hheld : s.tickerHeld = false :=
        h4 CbPhase.send (by rw [hc]; simp) (Or.inr (Or.inl rfl))
      refine ⟨h1, h2, by simp [deliver], fun c hc' hor => hheld, fun ha => ?_⟩
      obtain ⟨hth, hnil⟩ := h5 ha
      exact absurd (hnil.symm.trans hc) (by simp)
  | cbArmTicker l1 l2 hc =>
      obtain ⟨hl1, hl2⟩ := qcb_nil h3 hc
      subst hl1
      subst hl2
      have hheld : s.tickerHeld = false :=
        h4 CbPhase.newTicker (by rw [hc]; simp) (Or.inr (Or.inr rfl))
      refine ⟨h1, ?_, by simp, fun c hc' hor => ?_, fun ha => ?_⟩
      · rw [h2, hheld]
        simp
      · simp at hc'
        subst hc'
        rcases hor with h | h | h <;> simp at h
      · obtain ⟨hth, hnil⟩ := h5 ha
        exact absurd (hnil.symm.trans hc) (by simp)
  | cbNotify l1 l2 hc =>
      obtain ⟨hl1, hl2⟩ := qcb_nil h3 hc
      subst hl1
      subst hl2
      refine ⟨h1, h2, by simp, fun c hc' hor => ?_, fun ha => ?_⟩
      · simp at hc'
      · obtain ⟨hth, hnil⟩ := h5 ha
        exact ⟨hth, by simp⟩
  | tickerFire t hnt hbuf => exact ⟨h1, h2, h3, h4, h5⟩
  | consume t rest hbuf => exact ⟨h1, h2, h3, h4, h5⟩

lemma qinv_reachableFrom {a b : SysState} (h : QReachableFrom a b)
    (ha : QInv a) : QInv b := by
  induction h with
  | refl => exact ha
  | tail hab l hq hbc ih => exact qinv_step ih hq hbc

lemma qinv_reachable {s : SysState} (h : QReachable s) : QInv s :=
  qinv_reachableFrom h qinv_startState

lemma stopped_step {s s' : SysState} {l : Label} (h : Stopped s)
    (hs : Step s l s') : Stopped s' ∧ s'.delivered = s.delivered := by
  obtain ⟨h1, h2, h3⟩ := h
  cases hs with
  | callStop hc => simp [hc] at h1
  | loopStop hrun hst => simp [hrun] at h2
  | loopReset next interval hrun hopen hi => simp [hrun] at h2
  | loopResetClosed hrun hclosed => simp [hrun] at h2
  | loopTick t hrun hnt hbuf => simp [hrun] at h2
  | oneShotFire hf =>
      refine ⟨⟨h1, h2, ?_⟩, rfl⟩
      simpa using h3
  | cbStopCheckOpen l1 l2 hc hopen => simp [hopen] at h1
  | cbStopCheckClosed l1 l2 hc hst =>
      refine ⟨⟨h1, h2, ?_⟩, rfl⟩
      rw [hc] at h3
      simp only [List.mem_append, List.mem_cons] at h3 ⊢
      tauto
  | cbDeliver t l1 l2 hc =>
      rw [hc] at h3
      simp at h3
  | cbArmTicker l1 l2 hc =>
      refine ⟨⟨h1, h2, ?_⟩, rfl⟩
      rw [hc] at h3
      simp only [List.mem_append, List.mem_cons] at h3 ⊢
      simp at h3 ⊢
      tauto
  | cbNotify l1 l2 hc =>
      refine ⟨⟨h1, h2, ?_⟩, rfl⟩
      rw [hc] at h3
      simp only [List.mem_append, List.mem_cons] at h3 ⊢
      simp at h3 ⊢
      tauto
  | tickerFire t hnt hbuf => exact ⟨⟨h1, h2, h3⟩, rfl⟩
  | consume t rest hbuf => exact ⟨⟨h1, h2, h3⟩, rfl⟩

lemma stopped_reachableFrom {a b : SysState} (h : ReachableFrom a b)
    (ha : Stopped a) : Stopped b ∧ b.delivered = a.delivered := by
  induction h with
  | refl => exact ⟨ha, rfl⟩
  | tail hab l hbc ih =>
      obtain ⟨hs, hd⟩ := ih
      obtain ⟨hs', hd'⟩ := stopped_step hs hbc
      exact ⟨hs', by rw [hd', hd]⟩

lemma reach_cex3 : ReachableFrom startState cex3 := by
  have r1 : ReachableFrom startState cex1 :=
    .tail (.refl _) _ (Step.loopReset startState 0 10 rfl rfl (by decide))
  have r2 : ReachableFrom startState cex2 :=
    .tail r1 _ (Step.oneShotFire cex1 rfl)
  exact .tail r2 _ (Step.cbStopCheckOpen cex2 [] [] rfl rfl)

/-- C6: the output stream is a buffer of capacity exactly one
(`make(chan time.Time, 1)`), and every delivery onto it is non-blocking
with drop-on-full semantics: `sendTime` appends to an empty buffer and
leaves a non-empty buffer unchanged (the new tick is discarded); in every
reachable state the buffer holds at most one tick; and every transition of
the system either leaves the buffer alone, consumes its head, or passes it
through `sendTime` — both delivery sites (the first-fire callback's
`sendTime(st.ticks, time.Now())` and the loop's
`sendTime(st.ticks, t)` for interval ticks) go through `sendTime`, and no
transition is ever blocked by a full buffer. -/
theorem ticks_capacity_one_drop_on_full :
    ticksChanCap = 1
      ∧ (∀ t, sendTime [] t = [t])
      ∧ (∀ x rest t, sendTime (x :: rest) t = x :: rest)
      ∧ (∀ s, Reachable s → s.ticksBuf.length ≤ ticksChanCap)
      ∧ (∀ s l s', Step s l s' →
            s'.ticksBuf = s.ticksBuf
          ∨ (∃ t rest, s.ticksBuf = t :: rest ∧ s'.ticksBuf = rest)
          ∨ (∃ t, s'.ticksBuf = sendTime s.ticksBuf t)) := by
  refine ⟨rfl, fun t => by simp [sendTime, ticksChanCap], ?_, ?_, ?_⟩
  · intro x rest t
    unfold sendTime
    rw [if_neg]
    simp only [List.length_cons, ticksChanCap]
    omega
  · exact fun s hr => (inv_reachable hr).1
  · intro s l s' h
    cases h with
    | callStop hc => exact Or.inl rfl
    | loopStop hrun hst => exact Or.inl rfl
    | loopReset next interval hrun hopen hi => exact Or.inl rfl
    | loopResetClosed hrun hclosed => exact Or.inl rfl
    | loopTick t hrun hnt hbuf => exact Or.inr (Or.inr ⟨t, rfl⟩)
    | oneShotFire hf => exact Or.inl rfl
    | cbStopCheckOpen l1 l2 hc hopen => exact Or.inl rfl
    | cbStopCheckClosed l1 l2 hc hst => exact Or.inl rfl
    | cbDeliver t l1 l2 hc => exact Or.inr (Or.inr ⟨t, rfl⟩)
    | cbArmTicker l1 l2 hc => exact Or.inl rfl
    | cbNotify l1 l2 hc => exact Or.inl rfl
    | tickerFire t hnt hbuf => exact Or.inl rfl
    | consume t rest hbuf => exact Or.inr (Or.inl ⟨t, rest, hbuf, rfl⟩)

/-- Witness for C6: an empty buffer accepts a tick, a full buffer keeps
its old tick and drops the new one, the fresh state respects the capacity,
and a concrete step only moves the buffer in one of the allowed ways. -/
theorem ticks_capacity_one_drop_on_full_witness :
    sendTime [] 7 = [7] ∧ sendTime [3] 7 = [3]
      ∧ startState.ticksBuf.length ≤ ticksChanCap
      ∧ (cex1.ticksBuf = startState.ticksBuf
          ∨ (∃ t rest, startState.ticksBuf = t :: rest ∧ cex1.ticksBuf = rest)
          ∨ (∃ t, cex1.ticksBuf = sendTime startState.ticksBuf t)) :=
  ⟨ticks_capacity_one_drop_on_full.2.1 7,
   ticks_capacity_one_drop_on_full.2.2.1 3 [] 7,
   ticks_capacity_one_drop_on_full.2.2.2.1 startState (.refl _),
   ticks_capacity_one_drop_on_full.2.2.2.2 startState (Label.loopReset 0 10) cex1
     (Step.loopReset startState 0 10 rfl rfl (by decide))⟩

/-- C7 fails as stated: `cexStop` is a reachable state in which `Stop` has
already been issued (`st.stop` closed) while an interval tick is pending
in `nextTick` and the loop is still running.  Go's `select` chooses among
ready cases nondeterministically, so the loop may take
`case t := <-nextTick` instead of `case <-st.stop` and deliver the tick
after the stop signal — the `delivered` count grows by one. -/
theorem tick_after_stop_counterexample :
    Reachable cexStop ∧ cexStop.stopClosed = true
      ∧ Step cexStop (Label.loopTick 200) cexAfterStop
      ∧ cexAfterStop.delivered = cexStop.delivered + 1 := by
  refine ⟨?_, rfl, Step.loopTick cexStop 200 rfl rfl rfl, by decide⟩
  have r4 : ReachableFrom startState cex4 :=
    .tail reach_cex3 _ (Step.cbDeliver cex3 100 [] [] rfl)
  have r5 : ReachableFrom startState cex5 :=
    .tail r4 _ (Step.consume cex4 100 [] rfl)
  have r6 : ReachableFrom startState cex6 :=
    .tail r5 _ (Step.cbArmTicker cex5 [] [] rfl)
  have r7 : ReachableFrom startState cex7 :=
    .tail r6 _ (Step.cbNotify cex6 [] [] rfl)
  have r8 : ReachableFrom startState cex8 :=
    .tail r7 _ (Step.tickerFire cex7 200 rfl rfl)
  exact .tail r8 _ (Step.callStop cex8 rfl)

/-- C7 (amended): once the stop signal has been issued, the control loop
has observed it and exited, and no in-flight first-fire callback has
already passed its stop check, no tick is ever delivered onto the output
stream in any continuation of the execution (a callback still before its
stop check is suppressed by observing the closed channel).  As stated the
claim fails: between `Stop` and the loop's exit, `select`
nondeterminism can still deliver a pending interval tick, and a callback
already past its stop check can still deliver its first-fire tick. -/
theorem no_tick_after_loop_exit (s s' : SysState) (hs : Stopped s)
    (h : ReachableFrom s s') : s'.delivered = s.delivered :=
  (stopped_reachableFrom h hs).2

/-- Witness for the amended C7: from a stopped-and-exited state with a
callback still before its stop check, the callback observes the closed
`st.stop` and dies; the delivered count is unchanged. -/
theorem no_tick_after_loop_exit_witness :
    SysState.delivered { stoppedCbState with cbs := ([] : List CbPhase) }
      = stoppedCbState.delivered :=
  no_tick_after_loop_exit stoppedCbState
    { stoppedCbState with cbs := ([] : List CbPhase) }
    ⟨rfl, rfl, by decide⟩
    (.tail (.refl _) _ (Step.cbStopCheckClosed stoppedCbState [] [] rfl rfl))

/-- C8 fails as stated: `cexLeak` is a reachable state with two live
interval tickers.  A first-fire callback that is between its stop check
and its `NewTicker` when the loop accepts a `Reset` creates its ticker
after the loop's `stopTickerTimer` already ran; the next configuration's
callback then overwrites the loop's `ticker` variable without stopping
that ticker, leaking it. -/
theorem ticker_leak_counterexample :
    Reachable cexLeak ∧ ¬ cexLeak.tickerAlive ≤ 1 := by
  refine ⟨?_, by decide⟩
  have r4 : ReachableFrom startState lex4 :=
    .tail reach_cex3 _ (Step.loopReset cex3 5 10 rfl rfl (by decide))
  have r5 : ReachableFrom startState lex5 :=
    .tail r4 _ (Step.cbDeliver lex4 100 [] [] rfl)
  have r6 : ReachableFrom startState lex6 :=
    .tail r5 _ (Step.cbArmTicker lex5 [] [] rfl)
  have r7 : ReachableFrom startState lex7 :=
    .tail r6 _ (Step.cbNotify lex6 [] [] rfl)
  have r8 : ReachableFrom startState lex8 :=
    .tail r7 _ (Step.oneShotFire lex7 rfl)
  have r9 : ReachableFrom startState lex9 :=
    .tail r8 _ (Step.cbStopCheckOpen lex8 [] [] rfl rfl)
  have r10 : ReachableFrom startState lex10 :=
    .tail r9 _ (Step.cbDeliver lex9 200 [] [] rfl)
  exact .tail r10 _ (Step.cbArmTicker lex10 [] [] rfl)

/-- C8 (amended): in every reachable state at most one one-shot timer is
alive; at most one interval ticker is alive in executions where no
reconfiguration is accepted while a first-fire callback is in flight; and
the stop and reconfigure transition paths release whichever timers the
loop holds before proceeding (`stopTickerTimer` stops the held armed
one-shot and the held ticker).  Unrestricted, the interval-ticker bound
fails: a ticker created by a callback racing a reconfigure leaks, see the
counterexample. -/
theorem timer_resource_bounds :
    (∀ s, Reachable s → s.oneShotAlive ≤ 1)
      ∧ (∀ s, QReachable s → s.tickerAlive ≤ 1)
      ∧ (∀ s s', Step s Label.loopStop s' →
          s'.heldOneShotArmed = false ∧ s'.tickerHeld = false
            ∧ s'.oneShotAlive
                = s.oneShotAlive - (if s.heldOneShotArmed then 1 else 0)
            ∧ s'.tickerAlive
                = s.tickerAlive - (if s.tickerHeld then 1 else 0))
      ∧ (∀ s next interval s', Step s (Label.loopReset next interval) s' →
          s'.tickerHeld = false
            ∧ s'.tickerAlive
                = s.tickerAlive - (if s.tickerHeld then 1 else 0)
            ∧ s'.oneShotAlive
                = (s.oneShotAlive - (if s.heldOneShotArmed then 1 else 0)) + 1) := by
  refine ⟨?_, ?_, ?_, ?_⟩
  · intro s hr
    have h := (inv_reachable hr).2.2
    rw [h]
    cases s.heldOneShotArmed <;> simp
  · intro s hr
    have h := (qinv_reachable hr).2.1
    rw [h]
    cases s.tickerHeld <;> simp
  · intro s s' h
    cases h with
    | loopStop hrun hst => exact ⟨rfl, rfl, rfl, rfl⟩
  · intro s next interval s' h
    cases h with
    | loopReset hrun hopen hi => exact ⟨rfl, rfl, rfl⟩

/-- Witness for the amended C8 at concrete states: the fresh state and a
state after one reconfigure satisfy both bounds, and a concrete stop
transition releases the held timers. -/
theorem timer_resource_bounds_witness :
    startState.oneShotAlive ≤ 1 ∧ cex1.oneShotAlive ≤ 1
      ∧ startState.tickerAlive ≤ 1
      ∧ (loopExit cexStop).heldOneShotArmed = false
      ∧ (loopExit cexStop).tickerHeld = false :=
  ⟨timer_resource_bounds.1 startState (.refl _),
   timer_resource_bounds.1 cex1
     (.tail (.refl _) _ (Step.loopReset startState 0 10 rfl rfl (by decide))),
   timer_resource_bounds.2.1 startState (.refl _),
   (timer_resource_bounds.2.2.1 cexStop (loopExit cexStop)
     (Step.loopStop cexStop rfl rfl)).1,
   (timer_resource_bounds.2.2.1 cexStop (loopExit cexStop)
     (Step.loopStop cexStop rfl rfl)).2.1⟩

end Sticker
